import Mathlib

/-!
Shallow embedding of the task-tracker logic of `src/src/components/TaskTracker.tsx`.

The ISO date-time strings stored in `whenISO`, `createdAt` and `timestamp` are
modelled by their epoch-millisecond values (`Int`), since the program only ever
uses them through `new Date(s).getTime()` comparisons.  The local calendar-day
decomposition that `withinToday` performs via `Date#getFullYear/getMonth/getDate`
is abstracted as a function parameter `localDate : Int → Int × Int × Int`
(milliseconds to the local (year, month, day-of-month) triple).
-/

namespace Ketto

/-- The `channels` record of a `Task` (three independent boolean flags). -/
structure Channels where
  email : Bool
  whatsapp : Bool
  push : Bool
deriving DecidableEq

/-- The `Task` interface.  `rep` embeds the source field `repeat` (a Lean
keyword); `whenISO` and `createdAt` hold the epoch milliseconds of the stored
ISO strings. -/
structure Task where
  id : String
  title : String
  category : String
  whenISO : Int
  estimateMin : Int
  rep : String
  channels : Channels
  done : Bool
  createdAt : Int
deriving DecidableEq

/-- The `outcome` record of a `Log` entry. -/
structure Outcome where
  status : String
  lateMin : Int
  note : String
deriving DecidableEq

/-- The `Log` interface. -/
structure Log where
  id : String
  taskId : String
  title : String
  whenISO : Int
  outcome : Outcome
  timestamp : Int
deriving DecidableEq

/-- The state owned by `GlassTaskTracker`: the `tasks` and `logs` `useState`
lists. -/
structure TrackerState where
  tasks : List Task
  logs : List Log
deriving DecidableEq

/-- `addTask`: `setTasks((p) => [...p, task])`. -/
def addTask (s : TrackerState) (task : Task) : TrackerState :=
  { s with tasks := s.tasks ++ [task] }

/-- `toggleDone`: `prev.map((t) => (t.id === id ? { ...t, done: !t.done } : t))`. -/
def toggleDone (s : TrackerState) (id : String) : TrackerState :=
  { s with tasks := s.tasks.map fun t => if t.id = id then { t with done := !t.done } else t }

/-- `removeTask`: `prev.filter((t) => t.id !== id)`. -/
def removeTask (s : TrackerState) (id : String) : TrackerState :=
  { s with tasks := s.tasks.filter fun t => t.id != id }

/-- `logOutcome`: builds the new `Log` entry (`entryId` stands for the `uid()`
call, `now` for `new Date().toISOString()`) and prepends it: `[entry, ...p]`. -/
def logOutcome (s : TrackerState) (task : Task) (outcome : Outcome) (entryId : String)
    (now : Int) : TrackerState :=
  { s with logs := { id := entryId, taskId := task.id, title := task.title,
                     whenISO := task.whenISO, outcome := outcome, timestamp := now } :: s.logs }

/-- JavaScript `Math.round(num / den)` for integer `num` and positive integer
`den`: `Math.round x = ⌊x + 1/2⌋`, i.e. `⌊(2 num + den) / (2 den)⌋`. -/
def jsRoundDiv (num den : Int) : Int := Int.fdiv (2 * num + den) (2 * den)

/-- The `lateMin` computed by `completeTask`:
`Math.max(0, Math.round((end - start) / 60000))` where `start` is the task's
scheduled time and `end` is `Date.now()`. -/
def completionLateMin (task : Task) (now : Int) : Int :=
  max 0 (jsRoundDiv (now - task.whenISO) 60000)

/-- Whether `completeTask` reaches the `window.prompt` call: the condition of
the ternary `lateMin > 0 ? window.prompt(...) : "on-time"`. -/
def completePromptShown (task : Task) (now : Int) : Bool :=
  decide (0 < completionLateMin task now)

/-- The `why` value of `completeTask`.  `promptResult` is the environment's
answer to `window.prompt` (`none` models the user dismissing the prompt, which
returns `null`). -/
def completionWhy (task : Task) (now : Int) (promptResult : Option String) : Option String :=
  if 0 < completionLateMin task now then promptResult else some "on-time"

/-- JavaScript `why || ""`: `null` and the empty string (the falsy strings)
collapse to `""`. -/
def jsOrEmpty : Option String → String
  | none => ""
  | some str => str

/-- `completeTask`: computes `lateMin`, the `why` answer, then runs
`toggleDone(task.id)` followed by `logOutcome(task, { status: "done", lateMin,
note: why || "" })`. -/
def completeTask (s : TrackerState) (task : Task) (now : Int) (entryId : String)
    (promptResult : Option String) : TrackerState :=
  logOutcome (toggleDone s task.id) task
    { status := "done", lateMin := completionLateMin task now,
      note := jsOrEmpty (completionWhy task now promptResult) }
    entryId now

/-- `isDueSoon`: `diffMs > 0 && diffMs <= leadMinutes * 60 * 1000` with
`diffMs = when - now`. -/
def isDueSoon (whenMs now leadMinutes : Int) : Bool :=
  decide (0 < whenMs - now) && decide (whenMs - now ≤ leadMinutes * 60 * 1000)

/-- `withinToday`: the stored timestamp and the current time have the same
local (year, month, day-of-month) triple. -/
def withinToday (localDate : Int → Int × Int × Int) (iso now : Int) : Bool :=
  decide (localDate iso = localDate now)

/-- The `upcoming` selection of the 20-second reminder interval:
`tasks.filter((tk) => !tk.done && withinToday(tk.whenISO) && isDueSoon(tk.whenISO, 1))`. -/
def reminderUpcoming (localDate : Int → Int × Int × Int) (now : Int)
    (tasks : List Task) : List Task :=
  tasks.filter fun tk =>
    !tk.done && withinToday localDate tk.whenISO now && isDueSoon tk.whenISO now 1

/-- Character-wise lower-casing, embedding `String#toLowerCase`. -/
def lowerChars (l : List Char) : List Char := l.map Char.toLower

/-- `leadsWith needle hay` holds when `needle` is an initial segment of `hay`. -/
def leadsWith : List Char → List Char → Bool
  | [], _ => true
  | _ :: _, [] => false
  | a :: as, b :: bs => a == b && leadsWith as bs

/-- `hasSeg needle hay` embeds `hay.includes(needle)`: some tail of `hay`
starts with `needle`. -/
def hasSeg (needle : List Char) : List Char → Bool
  | [] => needle.isEmpty
  | b :: bs => leadsWith needle (b :: bs) || hasSeg needle bs

/-- The search filter of the `filtered` memo:
`t.title.toLowerCase().includes(query.toLowerCase())`. -/
def titleIncludes (title query : String) : Bool :=
  hasSeg (lowerChars query.data) (lowerChars title.data)

/-- The category filter of the `filtered` memo:
`filterCat === "all" ? true : t.category === filterCat`. -/
def catPass (filterCat : String) (t : Task) : Bool :=
  if filterCat = "all" then true else t.category == filterCat

/-- The sort order of the `filtered` memo: ascending scheduled timestamp
(the comparator `new Date(a.whenISO).getTime() - new Date(b.whenISO).getTime()`). -/
def whenLE (a b : Task) : Prop := a.whenISO ≤ b.whenISO

instance : DecidableRel whenLE :=
  fun a b => inferInstanceAs (Decidable (a.whenISO ≤ b.whenISO))

instance : IsTotal Task whenLE := ⟨fun a b => Int.le_total a.whenISO b.whenISO⟩

instance : IsTrans Task whenLE := ⟨fun _ _ _ h1 h2 => le_trans h1 h2⟩

/-- The `filtered` memo: category filter, then case-insensitive title search,
then a stable sort ascending by scheduled timestamp. -/
def filtered (tasks : List Task) (filterCat query : String) : List Task :=
  (((tasks.filter (catPass filterCat)).filter fun t =>
      titleIncludes t.title query).insertionSort whenLE)

/-- The generic prompt returned by `aiSuggestion` when there are no logs. -/
def noLogsMsg : String := "Log a few tasks and I’ll spot patterns for you."

/-- The scheduling tip returned by `aiSuggestion` on repeated lateness. -/
def lateTipMsg : String :=
  "I noticed multiple late completions. Try scheduling deep-work tasks before lunch and keep water reminders every 90 min."

/-- The encouragement message returned by `aiSuggestion` otherwise. -/
def momentumMsg : String :=
  "Nice momentum! Consider creating a small habit streak: 3-day run for water + 20-min walk."

/-- `aiSuggestion`: no logs → generic prompt; at least 3 entries with
`outcome.lateMin > 0` → scheduling tip; otherwise → encouragement. -/
def aiSuggestion (logs : List Log) : String :=
  if logs.length = 0 then noLogsMsg
  else if 3 ≤ (logs.filter fun l => decide (0 < l.outcome.lateMin)).length then lateTipMsg
  else momentumMsg

/-- JavaScript `String#trim`: drop whitespace from both ends. -/
def trimChars (l : List Char) : List Char :=
  ((l.dropWhile Char.isWhitespace).reverse.dropWhile Char.isWhitespace).reverse

/-- `AddTaskModal.submit`'s guard condition `!title.trim()`: the trimmed title
is the empty string, in which case `window.alert("Please enter a title")` runs. -/
def submitAlertShown (title : String) : Bool := decide (trimChars title.data = [])

/-- `AddTaskModal.submit`: rejects a blank title, otherwise builds the payload
`Task` (with `title: title.trim()`, `done: false`).  `newId` stands for the
`uid()` call and `now` for `new Date().toISOString()`. -/
def submitTask (newId : String) (now : Int) (title category : String) (whenMs : Int)
    (rep : String) (estimateMin : Int) (email whatsapp push : Bool) : Option Task :=
  if trimChars title.data = [] then none
  else some { id := newId, title := String.mk (trimChars title.data), category := category,
              whenISO := whenMs, estimateMin := estimateMin, rep := rep,
              channels := { email := email, whatsapp := whatsapp, push := push },
              done := false, createdAt := now }

/-- The effect of pressing Create on the store: `onCreate(payload)` calls
`addTask` only when `submit` built a payload. -/
def submitAndCreate (s : TrackerState) (newId : String) (now : Int)
    (title category : String) (whenMs : Int) (rep : String) (estimateMin : Int)
    (email whatsapp push : Bool) : TrackerState :=
  match submitTask newId now title category whenMs rep estimateMin email whatsapp push with
  | none => s
  | some t => addTask s t

/-- The id-uniqueness invariant of §3 of the spec. -/
def idsUnique (ts : List Task) : Prop := (ts.map Task.id).Nodup

instance (ts : List Task) : Decidable (idsUnique ts) :=
  inferInstanceAs (Decidable ((ts.map Task.id).Nodup))

/-- The seeded "Drink Water" task, used as a concrete input. -/
def waterTask : Task :=
  { id := "a1b2c3d4", title := "Drink Water", category := "health", whenISO := 0,
    estimateMin := 1, rep := "daily", channels := { email := false, whatsapp := false, push := true },
    done := false, createdAt := 0 }

/-- A store holding only `waterTask`, used as a concrete input. -/
def waterState : TrackerState := { tasks := [waterTask], logs := [] }

/-- A task whose completion flag is already `true`, used as a concrete input. -/
def alreadyDoneTask : Task := { waterTask with id := "z9y8x7w6", done := true }

/-- A store holding only `alreadyDoneTask`, used as a concrete input. -/
def alreadyDoneState : TrackerState := { tasks := [alreadyDoneTask], logs := [] }

/-- A second task sharing `waterTask`'s id, used as a concrete input. -/
def duplicateIdTask : Task := { waterTask with title := "Duplicate", createdAt := 1 }

/-- A task with a fresh id, used as a concrete input. -/
def freshTask : Task := { waterTask with id := "e5f6a7b8", title := "Deep Work Sprint" }

/-- A task scheduled 30 seconds from epoch 0, used as a concrete input. -/
def soonTask : Task := { waterTask with whenISO := 30000 }

/-- A task scheduled 2 minutes from epoch 0, used as a concrete input. -/
def laterTask : Task := { waterTask with id := "e5f6a7b8", whenISO := 120000 }

/-- `hay.includes("")` is `true` for every haystack. -/
theorem hasSeg_nil (hay : List Char) : hasSeg [] hay = true := by
  cases hay <;> simp [hasSeg, leadsWith, List.isEmpty]

/-- C6: for an id present in the task list, `removeTask` keeps exactly the
tasks whose id differs, in their original order, and leaves the log list
unchanged. -/
theorem removeTask_removes_id_keeps_logs (s : TrackerState) (id : String)
    (h : id ∈ s.tasks.map Task.id) :
    (∀ t : Task, t ∈ (removeTask s id).tasks ↔ t ∈ s.tasks ∧ t.id ≠ id) ∧
    (removeTask s id).tasks.Sublist s.tasks ∧
    (removeTask s id).logs = s.logs := by
  refine ⟨fun t => ?_, List.filter_sublist _, rfl⟩
  simp [removeTask, List.mem_filter, bne_iff_ne]

/-- C6 witness at a concrete store. -/
theorem removeTask_removes_id_keeps_logs_witness :
    (∀ t : Task, t ∈ (removeTask waterState "a1b2c3d4").tasks ↔
      t ∈ waterState.tasks ∧ t.id ≠ "a1b2c3d4") ∧
    (removeTask waterState "a1b2c3d4").tasks.Sublist waterState.tasks ∧
    (removeTask waterState "a1b2c3d4").logs = waterState.logs :=
  removeTask_removes_id_keeps_logs waterState "a1b2c3d4" (by decide)

/-- C7: `logOutcome` prepends the new entry at the head of the log list, and
every store operation preserves the existing log entries unchanged and in
order (the old log list is a suffix of the new one; no entry is edited or
deleted). -/
theorem logs_prepend_only (s : TrackerState) (task t : Task) (outcome : Outcome)
    (entryId : String) (now : Int) (id : String) (w : Option String) :
    (∃ e : Log, (logOutcome s task outcome entryId now).logs = e :: s.logs) ∧
    (addTask s t).logs = s.logs ∧
    (toggleDone s id).logs = s.logs ∧
    (removeTask s id).logs = s.logs ∧
    s.logs.IsSuffix (completeTask s task now entryId w).logs :=
  ⟨⟨_, rfl⟩, rfl, rfl, rfl, ⟨[_], rfl⟩⟩

/-- C10: `toggleDone` preserves the length and order of the task list and the
log list; at every position, every field other than `done` is unchanged, the
`done` flag is inverted exactly on id match; and with no matching id the state
is untouched. -/
theorem toggleDone_frame (s : TrackerState) (id : String) :
    (toggleDone s id).tasks.length = s.tasks.length ∧
    (∀ i (h : i < s.tasks.length) (h' : i < (toggleDone s id).tasks.length),
      (toggleDone s id).tasks[i].id = s.tasks[i].id ∧
      (toggleDone s id).tasks[i].title = s.tasks[i].title ∧
      (toggleDone s id).tasks[i].category = s.tasks[i].category ∧
      (toggleDone s id).tasks[i].whenISO = s.tasks[i].whenISO ∧
      (toggleDone s id).tasks[i].estimateMin = s.tasks[i].estimateMin ∧
      (toggleDone s id).tasks[i].rep = s.tasks[i].rep ∧
      (toggleDone s id).tasks[i].channels = s.tasks[i].channels ∧
      (toggleDone s id).tasks[i].createdAt = s.tasks[i].createdAt ∧
      (s.tasks[i].id = id → (toggleDone s id).tasks[i].done = !s.tasks[i].done) ∧
      (s.tasks[i].id ≠ id → (toggleDone s id).tasks[i] = s.tasks[i])) ∧
    (id ∉ s.tasks.map Task.id → toggleDone s id = s) ∧
    (toggleDone s id).logs = s.logs := by
  refine ⟨by simp [toggleDone], fun i h h' => ?_, fun hid => ?_, rfl⟩
  · have hg : (toggleDone s id).tasks[i] =
        (fun t : Task => if t.id = id then { t with done := !t.done } else t)
          s.tasks[i] := by
      simp [toggleDone]
    by_cases hc : s.tasks[i].id = id <;>
      simp [hg, hc]
  · have : (toggleDone s id).tasks = s.tasks := by
      have := List.map_congr_left
        (f := fun t : Task => if t.id = id then { t with done := !t.done } else t)
        (g := fun t : Task => t) (l := s.tasks) ?_
      · simpa [toggleDone] using this
      · intro a ha
        have : a.id ≠ id := fun hEq => hid (hEq ▸ List.mem_map_of_mem Task.id ha)
        simp [this]
    cases s with
    | mk tasks logs => simpa [toggleDone] using this

/-- C10 witness at a concrete store. -/
theorem toggleDone_frame_witness :
    (toggleDone waterState "a1b2c3d4").tasks.length = waterState.tasks.length ∧
    (∀ i (h : i < waterState.tasks.length)
        (h' : i < (toggleDone waterState "a1b2c3d4").tasks.length),
      (toggleDone waterState "a1b2c3d4").tasks[i].id = waterState.tasks[i].id ∧
      (toggleDone waterState "a1b2c3d4").tasks[i].title = waterState.tasks[i].title ∧
      (toggleDone waterState "a1b2c3d4").tasks[i].category = waterState.tasks[i].category ∧
      (toggleDone waterState "a1b2c3d4").tasks[i].whenISO = waterState.tasks[i].whenISO ∧
      (toggleDone waterState "a1b2c3d4").tasks[i].estimateMin = waterState.tasks[i].estimateMin ∧
      (toggleDone waterState "a1b2c3d4").tasks[i].rep = waterState.tasks[i].rep ∧
      (toggleDone waterState "a1b2c3d4").tasks[i].channels = waterState.tasks[i].channels ∧
      (toggleDone waterState "a1b2c3d4").tasks[i].createdAt = waterState.tasks[i].createdAt ∧
      (waterState.tasks[i].id = "a1b2c3d4" →
        (toggleDone waterState "a1b2c3d4").tasks[i].done = !waterState.tasks[i].done) ∧
      (waterState.tasks[i].id ≠ "a1b2c3d4" →
        (toggleDone waterState "a1b2c3d4").tasks[i] = waterState.tasks[i])) ∧
    ("a1b2c3d4" ∉ waterState.tasks.map Task.id → toggleDone waterState "a1b2c3d4" = waterState) ∧
    (toggleDone waterState "a1b2c3d4").logs = waterState.logs :=
  toggleDone_frame waterState "a1b2c3d4"

/-- C2: a task is in the reminder scan's match set on a tick at time `now` iff
it is in the list, not completed, scheduled on the current local calendar day,
and scheduled strictly after `now` and at most `now + 1` minute; in particular
a not-completed same-day task at `now + 30` seconds is matched and one at
`now + 2` minutes is not. -/
theorem reminder_scan_window (localDate : Int → Int × Int × Int) (now : Int)
    (tasks : List Task) :
    (∀ t : Task, t ∈ reminderUpcoming localDate now tasks ↔
      t ∈ tasks ∧ t.done = false ∧ localDate t.whenISO = localDate now ∧
        now < t.whenISO ∧ t.whenISO ≤ now + 60000) ∧
    (∀ u ∈ tasks, u.done = false → u.whenISO = now + 30000 →
      localDate u.whenISO = localDate now → u ∈ reminderUpcoming localDate now tasks) ∧
    (∀ u ∈ tasks, u.whenISO = now + 120000 → u ∉ reminderUpcoming localDate now tasks) := by
  have key : ∀ t : Task, t ∈ reminderUpcoming localDate now tasks ↔
      t ∈ tasks ∧ t.done = false ∧ localDate t.whenISO = localDate now ∧
        now < t.whenISO ∧ t.whenISO ≤ now + 60000 := by
    intro t
    simp only [reminderUpcoming, List.mem_filter, Bool.and_eq_true, Bool.not_eq_true',
      withinToday, isDueSoon, decide_eq_true_eq]
    constructor
    · rintro ⟨h1, ⟨hd, hw⟩, h3, h4⟩
      exact ⟨h1, hd, hw, by omega, by omega⟩
    · rintro ⟨h1, hd, hw, h3, h4⟩
      exact ⟨h1, ⟨hd, hw⟩, by omega, by omega⟩
  refine ⟨key, fun u hu hd hw hday => (key u).mpr ⟨hu, hd, hday, by omega, by omega⟩,
    fun u hu hw hmem => ?_⟩
  obtain ⟨-, -, -, h3, h4⟩ := (key u).mp hmem
  omega

/-- C2 witness: at `now = 0` with a fixed local calendar, the task scheduled at
30 seconds is matched and the one at 2 minutes is not. -/
theorem reminder_scan_window_witness :
    soonTask ∈ reminderUpcoming (fun _ => (2024, 0, 1)) 0 [soonTask, laterTask] ∧
    laterTask ∉ reminderUpcoming (fun _ => (2024, 0, 1)) 0 [soonTask, laterTask] := by
  have h := reminder_scan_window (fun _ => (2024, 0, 1)) 0 [soonTask, laterTask]
  exact ⟨h.2.1 soonTask (by simp) rfl rfl rfl, h.2.2 laterTask (by simp) rfl⟩

/-- C3: the derived visible list is a permutation of the task list filtered by
category then by case-insensitive title search, it is sorted ascending by
scheduled timestamp, and with no category filter and an empty search it
contains exactly the tasks of the list. -/
theorem filtered_view_spec (tasks : List Task) (filterCat query : String) :
    (filtered tasks filterCat query).Perm
      ((tasks.filter (catPass filterCat)).filter fun t => titleIncludes t.title query) ∧
    List.Sorted whenLE (filtered tasks filterCat query) ∧
    (filtered tasks "all" "").Perm tasks := by
  refine ⟨List.perm_insertionSort _ _, List.sorted_insertionSort _ _, ?_⟩
  have h1 : tasks.filter (catPass "all") = tasks :=
    List.filter_eq_self.mpr fun a _ => by simp [catPass]
  have h2 : (tasks.filter fun t => titleIncludes t.title "") = tasks :=
    List.filter_eq_self.mpr fun a _ => by
      have he : ("" : String).data = [] := rfl
      simp [titleIncludes, lowerChars, he, hasSeg_nil]
  unfold filtered
  rw [h1, h2]
  exact List.perm_insertionSort _ _

/-- C1 counterexample: `completeTask` toggles rather than sets the completion
flag, so completing a task whose flag is already `true` leaves it `false`. -/
theorem completeTask_toggles_already_done_task :
    alreadyDoneTask ∈ alreadyDoneState.tasks ∧ alreadyDoneTask.done = true ∧
    (completeTask alreadyDoneState alreadyDoneTask 0 "e2" none).tasks.map Task.done =
      [false] := by decide

/-- C1 (amended): for a task of the list whose completion flag is false, with
ids unique in the list, `completeTask` sets the flag of the task with that id
to true and appends exactly one new log entry with outcome status `"done"` and
lateness `max 0 (round ((now - scheduled) / 60000))`; no other log entry is
added or removed. -/
theorem completeTask_marks_done_and_appends_log (s : TrackerState) (task : Task)
    (now : Int) (entryId : String) (promptResult : Option String)
    (hmem : task ∈ s.tasks) (hdone : task.done = false) (huniq : idsUnique s.tasks) :
    (∀ u ∈ (completeTask s task now entryId promptResult).tasks,
        u.id = task.id → u.done = true) ∧
    (∃ e : Log, (completeTask s task now entryId promptResult).logs = e :: s.logs ∧
      e.outcome.status = "done" ∧
      e.outcome.lateMin = max 0 (jsRoundDiv (now - task.whenISO) 60000)) := by
  constructor
  · intro u hu huid
    simp only [completeTask, logOutcome, toggleDone, List.mem_map] at hu
    obtain ⟨v, hv, rfl⟩ := hu
    by_cases hc : v.id = task.id
    · have hveq : v = task := List.inj_on_of_nodup_map huniq hv hmem hc
      subst hveq
      simp [hc, hdone]
    · rw [if_neg hc] at huid
      exact absurd huid hc
  · exact ⟨_, rfl, rfl, rfl⟩

/-- C1 witness: the "Drink Water" task completed 5 minutes after its scheduled
time. -/
theorem completeTask_marks_done_and_appends_log_witness :
    (∀ u ∈ (completeTask waterState waterTask 300000 "e1" none).tasks,
        u.id = waterTask.id → u.done = true) ∧
    (∃ e : Log, (completeTask waterState waterTask 300000 "e1" none).logs =
        e :: waterState.logs ∧
      e.outcome.status = "done" ∧
      e.outcome.lateMin = max 0 (jsRoundDiv (300000 - waterTask.whenISO) 60000)) :=
  completeTask_marks_done_and_appends_log waterState waterTask 300000 "e1" none
    (by decide) rfl (by decide)

/-- C4 counterexample: `uid` gives no uniqueness guarantee and `addTask`
appends unconditionally, so adding a task with an id already in the list
breaks id uniqueness. -/
theorem addTask_duplicate_id_breaks_uniqueness :
    idsUnique waterState.tasks ∧ duplicateIdTask.id = waterTask.id ∧
    ¬ idsUnique (addTask waterState duplicateIdTask).tasks := by decide

/-- C4 (amended): id uniqueness is preserved unconditionally by `toggleDone`
and `removeTask`, and by `addTask` provided the added task's id is not already
in the list. -/
theorem mutations_preserve_unique_ids (s : TrackerState) (id : String) (t : Task)
    (h : idsUnique s.tasks) :
    idsUnique (toggleDone s id).tasks ∧
    idsUnique (removeTask s id).tasks ∧
    (t.id ∉ s.tasks.map Task.id → idsUnique (addTask s t).tasks) := by
  refine ⟨?_, ?_, fun hfresh => ?_⟩
  · have hmap : (toggleDone s id).tasks.map Task.id = s.tasks.map Task.id := by
      simp only [toggleDone, List.map_map]
      refine List.map_congr_left fun a _ => ?_
      by_cases hc : a.id = id <;> simp [hc]
    unfold idsUnique
    rw [hmap]
    exact h
  · exact List.Nodup.sublist ((List.filter_sublist s.tasks).map Task.id) h
  · simp only [addTask, idsUnique, List.map_append, List.map_cons, List.map_nil,
      List.nodup_append]
    exact ⟨h, List.nodup_singleton _, by simpa using hfresh⟩

/-- C4 witness at a concrete store with a fresh id. -/
theorem mutations_preserve_unique_ids_witness :
    idsUnique (toggleDone waterState "a1b2c3d4").tasks ∧
    idsUnique (removeTask waterState "a1b2c3d4").tasks ∧
    (freshTask.id ∉ waterState.tasks.map Task.id →
      idsUnique (addTask waterState freshTask).tasks) :=
  mutations_preserve_unique_ids waterState "a1b2c3d4" freshTask (by decide)

/-- C5: when the computed lateness is 0 the recorded note is `"on-time"` and
the prompt is not shown; when it is positive the user is prompted, and if the
user dismisses the prompt or answers with the empty string, the recorded note
is `""`. -/
theorem completion_note_on_time_or_empty (s : TrackerState) (task : Task) (now : Int)
    (entryId : String) (w : Option String) :
    (completionLateMin task now = 0 →
      completePromptShown task now = false ∧
      ((completeTask s task now entryId w).logs.head?.map fun e => e.outcome.note) =
        some "on-time") ∧
    (0 < completionLateMin task now →
      completePromptShown task now = true ∧
      (w.getD "" = "" →
        ((completeTask s task now entryId w).logs.head?.map fun e => e.outcome.note) =
          some "")) := by
  constructor
  · intro h0
    refine ⟨by simp [completePromptShown, h0], ?_⟩
    simp [completeTask, logOutcome, completionWhy, h0, jsOrEmpty]
  · intro hpos
    refine ⟨by simp [completePromptShown, hpos], fun hw => ?_⟩
    cases w with
    | none => simp [completeTask, logOutcome, completionWhy, hpos, jsOrEmpty]
    | some str =>
      simp only [Option.getD_some] at hw
      subst hw
      simp [completeTask, logOutcome, completionWhy, hpos, jsOrEmpty]

/-- C5 witness: an on-time completion records `"on-time"` with no prompt; a
5-minutes-late completion shows the prompt and, dismissed, records `""`. -/
theorem completion_note_on_time_or_empty_witness :
    (completePromptShown waterTask 0 = false ∧
      ((completeTask waterState waterTask 0 "e3" none).logs.head?.map
        fun e => e.outcome.note) = some "on-time") ∧
    completePromptShown waterTask 300000 = true ∧
    ((completeTask waterState waterTask 300000 "e4" none).logs.head?.map
        fun e => e.outcome.note) = some "" :=
  ⟨(completion_note_on_time_or_empty waterState waterTask 0 "e3" none).1 (by decide),
   ((completion_note_on_time_or_empty waterState waterTask 300000 "e4" none).2
     (by decide)).1,
   ((completion_note_on_time_or_empty waterState waterTask 300000 "e4" none).2
     (by decide)).2 rfl⟩

/-- C8: a title that is empty or whitespace-only makes `submit` show the alert
and build no payload, leaving the store unchanged. -/
theorem empty_title_rejected (s : TrackerState) (newId : String) (now : Int)
    (title category : String) (whenMs : Int) (rep : String) (estimateMin : Int)
    (email whatsapp push : Bool) (h : ∀ c ∈ title.data, c.isWhitespace) :
    submitAlertShown title = true ∧
    submitTask newId now title category whenMs rep estimateMin email whatsapp push = none ∧
    submitAndCreate s newId now title category whenMs rep estimateMin email whatsapp push = s := by
  have htrim : trimChars title.data = [] := by
    unfold trimChars
    rw [List.dropWhile_eq_nil_iff.mpr h]
    rfl
  exact ⟨by simp [submitAlertShown, htrim], by simp [submitTask, htrim],
    by simp [submitAndCreate, submitTask, htrim]⟩

/-- C8 witness at a whitespace-only title. -/
theorem empty_title_rejected_witness :
    submitAlertShown "  " = true ∧
    submitTask "n1" 0 "  " "health" 0 "none" 15 false false true = none ∧
    submitAndCreate waterState "n1" 0 "  " "health" 0 "none" 15 false false true =
      waterState :=
  empty_title_rejected waterState "n1" 0 "  " "health" 0 "none" 15 false false true
    (by decide)

/-- C9: over log lists with the spec's nonnegative-lateness invariant,
`aiSuggestion` is the generic prompt when there are no entries, the scheduling
tip when at least 3 entries have nonzero lateness, and the encouragement
message otherwise. -/
theorem aiSuggestion_thresholds (logs : List Log)
    (h : ∀ l ∈ logs, 0 ≤ l.outcome.lateMin) :
    aiSuggestion logs =
      if logs = [] then noLogsMsg
      else if 3 ≤ (logs.filter fun l => decide (l.outcome.lateMin ≠ 0)).length then
        lateTipMsg
      else momentumMsg := by
  have hfil : (logs.filter fun l => decide (0 < l.outcome.lateMin)) =
      logs.filter fun l => decide (l.outcome.lateMin ≠ 0) := by
    refine List.filter_congr fun l hl => ?_
    have := h l hl
    simp only [decide_eq_decide]
    omega
  simp only [aiSuggestion, hfil, List.length_eq_zero]

/-- C9 witness at the empty log list. -/
theorem aiSuggestion_thresholds_witness :
    aiSuggestion [] =
      if ([] : List Log) = [] then noLogsMsg
      else if 3 ≤ (([] : List Log).filter fun l => decide (l.outcome.lateMin ≠ 0)).length
        then lateTipMsg
      else momentumMsg :=
  aiSuggestion_thresholds [] (by simp)

end Ketto
